import Mathlib

/-!
# Role template lifecycle (`pkg/controllers/management/auth/role_template_lifecycle.go`)

A shallow embedding of the role template lifecycle handler: the three lifecycle
entry points `Create`, `Updated`, `Remove`, the helper `enqueuePrtbs` and the
index key function `prtbByRoleTemplate`.

Conventions of the embedding.

* A Go `error` value is a `GoError`: its `Error()` text together with the verdicts
  that the two classification functions used by the handler give on it.  A `nil`
  error is `none`.
* Go pointers to API objects are the objects themselves (the controller runtime
  and the informer cache hand out non-nil objects).
* The collaborators of the handler (cluster client, cluster manager, downstream
  cluster role lister and client, binding indexer) are fields of a record of
  state-passing functions over an arbitrary state `σ`, so that a collaborator may
  answer differently at each call.
* `Remove` keeps, next to the variables of the source, the list of the calls it
  made to the cluster manager and to the downstream clusters, each with the
  result it got.  This list is not read by the code; it is what the theorems
  about "which calls are issued" talk about.
-/

namespace RoleTemplateLifecycle

/-! ## Data model -/

/-- A Go `error` value: the text of `Error()` and the verdicts of the two
classification functions on it. -/
structure GoError where
  /-- The text returned by `Error()`. -/
  Error : String
  /-- What `IsClusterUnavailable` answers on this error. -/
  clusterUnavailable : Bool
  /-- What `apierrors.IsNotFound` answers on this error. -/
  notFound : Bool
deriving DecidableEq, Repr

/-- Modelled from the spec: `IsClusterUnavailable` is declared elsewhere in package
`auth`; the spec calls it the distinguished "unreachable" classification of a
context error.  It is taken as a verdict carried by the error value. -/
def IsClusterUnavailable (err : GoError) : Bool := err.clusterUnavailable

/-- The library classification `apierrors.IsNotFound`, taken as a verdict carried by
the error value. -/
def IsNotFound (err : GoError) : Bool := err.notFound

/-- The error built by `fmt.Errorf` from an already formatted text: a plain
error, neither "cluster unavailable" nor "not found". -/
def Errorf (text : String) : GoError :=
  { Error := text, clusterUnavailable := false, notFound := false }

/-- The `%v` rendering of a slice of errors: the `Error()` texts separated by one
blank, between square brackets. -/
def formatErrors (errs : List GoError) : String :=
  "[" ++ " ".intercalate (errs.map GoError.Error) ++ "]"

/-- A `v3.RoleTemplate`, reduced to the field the handler reads. -/
structure RoleTemplate where
  Name : String
deriving DecidableEq, Repr

/-- A `v3.Cluster`, reduced to the field the handler reads. -/
structure Cluster where
  Name : String
deriving DecidableEq, Repr

/-- A `v3.ClusterList`. -/
structure ClusterList where
  Items : List Cluster
deriving DecidableEq, Repr

/-- A downstream `rbacv1.ClusterRole`, reduced to the field the handler reads. -/
structure ClusterRole where
  Name : String
deriving DecidableEq, Repr

/-- A `v3.ProjectRoleTemplateBinding`, reduced to the fields the handler reads. -/
structure ProjectRoleTemplateBinding where
  Namespace : String
  Name : String
  RoleTemplateName : String
deriving DecidableEq, Repr

/-- A value of type `interface{}` held by the binding indexer: a binding, or an
object of some other dynamic type (described by a text). -/
inductive Object where
  | prtb (b : ProjectRoleTemplateBinding)
  | other (description : String)
deriving DecidableEq, Repr

/-- A call made by `Remove` while visiting a cluster, with the result it got.
`clusterName` is the name of the cluster being visited. -/
inductive Call (Ctx : Type) where
  /-- The call `rtl.clusterManager.UserContext(cluster.Name)` -/
  | UserContext (clusterName : String) (result : Except GoError Ctx)
  /-- The call `userContext.RBAC.ClusterRoles("").Controller().Lister().Get("", name)` -/
  | Get (clusterName : String) (name : String) (result : Except GoError ClusterRole)
  /-- The call `userContext.RBAC.ClusterRoles("").Delete(name, &metav1.DeleteOptions{})` -/
  | Delete (clusterName : String) (name : String) (result : Option GoError)

/-- The collaborators `Remove` talks to, as state-passing functions over the
state `σ` of the outside world; `Ctx` is the type of a user context. -/
structure RemoveCollaborators (σ Ctx : Type) where
  /-- The call `rtl.clusters.List(metav1.ListOptions{})` -/
  clusters_List : σ → Except GoError ClusterList × σ
  /-- The call `rtl.clusterManager.UserContext(clusterName)` -/
  UserContext : String → σ → Except GoError Ctx × σ
  /-- The call `userContext.RBAC.ClusterRoles("").Controller().Lister().Get("", name)` -/
  ClusterRoles_Get : Ctx → String → σ → Except GoError ClusterRole × σ
  /-- The call `userContext.RBAC.ClusterRoles("").Delete(name, &metav1.DeleteOptions{})` -/
  ClusterRoles_Delete : Ctx → String → σ → Option GoError × σ

/-! ## `Remove` -/

/-- The variables of the loop of `Remove`: the collected errors, the calls made so
far, and the state of the outside world. -/
structure RemoveLoop (σ Ctx : Type) where
  allErrors : List GoError
  calls : List (Call Ctx)
  world : σ

/-- One iteration of the loop `for _, cluster := range clusters.Items` of
`Remove`. -/
def removeCluster {σ Ctx : Type} (rtl : RemoveCollaborators σ Ctx) (obj : RoleTemplate)
    (st : RemoveLoop σ Ctx) (cluster : Cluster) : RemoveLoop σ Ctx :=
  match rtl.UserContext cluster.Name st.world with
  | (.error err, w1) =>
    let calls1 := st.calls ++ [Call.UserContext cluster.Name (.error err)]
    -- ClusterUnavailable error indicates the record can't talk to the downstream cluster
    if !IsClusterUnavailable err then
      { allErrors := st.allErrors ++ [err], calls := calls1, world := w1 }
    else
      { allErrors := st.allErrors, calls := calls1, world := w1 }
  | (.ok userContext, w1) =>
    let calls1 := st.calls ++ [Call.UserContext cluster.Name (.ok userContext)]
    match rtl.ClusterRoles_Get userContext obj.Name w1 with
    | (.error err, w2) =>
      let calls2 := calls1 ++ [Call.Get cluster.Name obj.Name (.error err)]
      -- User context clusterRole doesn't exist
      if !IsNotFound err then
        { allErrors := st.allErrors ++ [err], calls := calls2, world := w2 }
      else
        { allErrors := st.allErrors, calls := calls2, world := w2 }
    | (.ok b, w2) =>
      let calls2 := calls1 ++ [Call.Get cluster.Name obj.Name (.ok b)]
      match rtl.ClusterRoles_Delete userContext b.Name w2 with
      | (some err, w3) =>
        let calls3 := calls2 ++ [Call.Delete cluster.Name b.Name (some err)]
        -- User context clusterRole doesn't exist
        if !IsNotFound err then
          { allErrors := st.allErrors ++ [err], calls := calls3, world := w3 }
        else
          { allErrors := st.allErrors, calls := calls3, world := w3 }
      | (none, w3) =>
        { allErrors := st.allErrors,
          calls := calls2 ++ [Call.Delete cluster.Name b.Name none],
          world := w3 }

/-- The whole loop of `Remove` over `clusters.Items`, started with no error
collected and no call made. -/
def removeLoop {σ Ctx : Type} (rtl : RemoveCollaborators σ Ctx) (obj : RoleTemplate)
    (clusters : ClusterList) (w : σ) : RemoveLoop σ Ctx :=
  clusters.Items.foldl (removeCluster rtl obj) { allErrors := [], calls := [], world := w }

/-- What a run of `Remove` leaves: the two returned values, the calls made while
visiting clusters, and the state of the outside world. -/
structure RemoveResult (σ Ctx : Type) where
  /-- The returned `runtime.Object`. -/
  obj : Option RoleTemplate
  /-- The returned `error`; `none` is `nil`. -/
  err : Option GoError
  calls : List (Call Ctx)
  world : σ

/-- Source: `func (rtl *roleTemplateLifecycle) Remove(obj *v3.RoleTemplate) (runtime.Object, error)` -/
def Remove {σ Ctx : Type} (rtl : RemoveCollaborators σ Ctx) (obj : RoleTemplate) (w : σ) :
    RemoveResult σ Ctx :=
  match rtl.clusters_List w with
  | (.error err, w0) => { obj := some obj, err := some err, calls := [], world := w0 }
  | (.ok clusters, w0) =>
    -- Collect all the errors to delete as many user context cluster roles as possible
    let st := removeLoop rtl obj clusters w0
    if st.allErrors.length > 0 then
      { obj := some obj,
        err := some (Errorf ("errors deleting dowstream clusterRole: " ++ formatErrors st.allErrors)),
        calls := st.calls, world := st.world }
    else
      { obj := some obj, err := none, calls := st.calls, world := st.world }

/-! ## `Create`, `Updated`, `enqueuePrtbs`, `prtbByRoleTemplate` -/

/-- The constant `prtbByRoleTemplateIndex`. -/
def prtbByRoleTemplateIndex : String := "management.cattle.io/prtb-by-role-template"

/-- The collaborators of `enqueuePrtbs`, as state-passing functions over the state
`σ` of the outside world. -/
structure EnqueueCollaborators (σ : Type) where
  /-- The call `rtl.prtbIndexer.ByIndex(indexName, indexedValue)` -/
  prtbIndexer_ByIndex : String → String → σ → Except GoError (List Object) × σ
  /-- The call `rtl.prtbClient.Controller().Enqueue(namespace, name)`: its effect on the
  outside world (the call returns nothing). -/
  Enqueue : String → String → σ → σ

/-- The variables of the loop of `enqueuePrtbs`: the enqueue signals emitted so
far and the state of the outside world. -/
structure EnqueueLoop (σ : Type) where
  enqueued : List (String × String)
  world : σ

/-- One iteration of the loop `for _, x := range prtbs` of `enqueuePrtbs`. -/
def enqueueOne {σ : Type} (rtl : EnqueueCollaborators σ) (st : EnqueueLoop σ) (x : Object) :
    EnqueueLoop σ :=
  match x with
  | .prtb prtb =>
    { enqueued := st.enqueued ++ [(prtb.Namespace, prtb.Name)],
      world := rtl.Enqueue prtb.Namespace prtb.Name st.world }
  | .other _ => st

/-- What a run of `enqueuePrtbs` leaves: the returned error, the enqueue signals
emitted in order, and the state of the outside world. -/
structure EnqueueResult (σ : Type) where
  err : Option GoError
  enqueued : List (String × String)
  world : σ

/-- Source: `func (rtl *roleTemplateLifecycle) enqueuePrtbs(updatedRT *v3.RoleTemplate) error` -/
def enqueuePrtbs {σ : Type} (rtl : EnqueueCollaborators σ) (updatedRT : RoleTemplate) (w : σ) :
    EnqueueResult σ :=
  match rtl.prtbIndexer_ByIndex prtbByRoleTemplateIndex updatedRT.Name w with
  | (.error err, w0) => { err := some err, enqueued := [], world := w0 }
  | (.ok prtbs, w0) =>
    let st := prtbs.foldl (enqueueOne rtl) { enqueued := [], world := w0 }
    { err := none, enqueued := st.enqueued, world := st.world }

/-- What a run of `Create` or `Updated` leaves: the two returned values, the
enqueue signals emitted in order, and the state of the outside world. -/
structure LifecycleResult (σ : Type) where
  /-- The returned `runtime.Object`; `none` is `nil`. -/
  obj : Option RoleTemplate
  /-- The returned `error`; `none` is `nil`. -/
  err : Option GoError
  enqueued : List (String × String)
  world : σ

/-- Source: `func (rtl *roleTemplateLifecycle) Create(obj *v3.RoleTemplate) (runtime.Object, error)` -/
def Create {σ : Type} (rtl : EnqueueCollaborators σ) (obj : RoleTemplate) (w : σ) :
    LifecycleResult σ :=
  let r := enqueuePrtbs rtl obj w
  match r.err with
  | some err => { obj := none, err := some err, enqueued := r.enqueued, world := r.world }
  | none => { obj := none, err := none, enqueued := r.enqueued, world := r.world }

/-- Source: `func (rtl *roleTemplateLifecycle) Updated(obj *v3.RoleTemplate) (runtime.Object, error)` -/
def Updated {σ : Type} (rtl : EnqueueCollaborators σ) (obj : RoleTemplate) (w : σ) :
    LifecycleResult σ :=
  let r := enqueuePrtbs rtl obj w
  match r.err with
  | some err => { obj := none, err := some err, enqueued := r.enqueued, world := r.world }
  | none => { obj := none, err := none, enqueued := r.enqueued, world := r.world }

/-- Source: `func prtbByRoleTemplate(obj interface{}) ([]string, error)` -/
def prtbByRoleTemplate (obj : Object) : List String × Option GoError :=
  match obj with
  | .other _ => ([], none)
  | .prtb prtb => ([prtb.RoleTemplateName], none)

/-! ## Vocabulary of the statements -/

/-- The error a call contributes to the aggregate, if any: the error of a failed
context acquisition that is not "cluster unavailable", or of a failed lookup or
delete that is not "not found". -/
def Call.unexpected {Ctx : Type} : Call Ctx → Option GoError
  | .UserContext _ (.error err) => if IsClusterUnavailable err then none else some err
  | .UserContext _ (.ok _) => none
  | .Get _ _ (.error err) => if IsNotFound err then none else some err
  | .Get _ _ (.ok _) => none
  | .Delete _ _ (some err) => if IsNotFound err then none else some err
  | .Delete _ _ none => none

/-- The name of the cluster a call was made for. -/
def Call.clusterName {Ctx : Type} : Call Ctx → String
  | .UserContext c _ => c
  | .Get c _ _ => c
  | .Delete c _ _ => c

/-- Whether a call is a delete. -/
def Call.isDelete {Ctx : Type} : Call Ctx → Bool
  | .Delete _ _ _ => true
  | _ => false

/-- The three shapes the calls of one visit of `cluster` can take: the context is
refused; the context is obtained and the lookup of `obj.Name` fails; the context
is obtained, the lookup returns `b`, and `b.Name` is deleted. -/
inductive VisitCalls {Ctx : Type} (obj : RoleTemplate) (cluster : Cluster) :
    List (Call Ctx) → Prop where
  | contextFailed (err : GoError) :
      VisitCalls obj cluster [Call.UserContext cluster.Name (.error err)]
  | lookupFailed (userContext : Ctx) (err : GoError) :
      VisitCalls obj cluster
        [Call.UserContext cluster.Name (.ok userContext),
         Call.Get cluster.Name obj.Name (.error err)]
  | deleteIssued (userContext : Ctx) (b : ClusterRole) (result : Option GoError) :
      VisitCalls obj cluster
        [Call.UserContext cluster.Name (.ok userContext),
         Call.Get cluster.Name obj.Name (.ok b),
         Call.Delete cluster.Name b.Name result]

/-- The visit of `cluster` fails: (a) the context is refused with an error that is
not "cluster unavailable", or (b) the context is obtained and the lookup of
`obj.Name` fails with an error that is not "not found", or (c) context and lookup
succeed and the delete fails with an error that is not "not found". -/
def VisitFails {Ctx : Type} (obj : RoleTemplate) (cluster : Cluster) (seg : List (Call Ctx)) :
    Prop :=
  (∃ err, seg = [Call.UserContext cluster.Name (.error err)] ∧ IsClusterUnavailable err = false) ∨
  (∃ userContext err,
    seg = [Call.UserContext cluster.Name (.ok userContext),
           Call.Get cluster.Name obj.Name (.error err)] ∧ IsNotFound err = false) ∨
  (∃ userContext b err,
    seg = [Call.UserContext cluster.Name (.ok userContext),
           Call.Get cluster.Name obj.Name (.ok b),
           Call.Delete cluster.Name b.Name (some err)] ∧ IsNotFound err = false)

/-- The first unexpected error among the calls of one visit, if any. -/
def visitError {Ctx : Type} (seg : List (Call Ctx)) : Option GoError :=
  (seg.filterMap Call.unexpected).head?

/-- A text mentions a name: the name occurs in it. -/
def Mentions (text name : String) : Prop := name.data <:+: text.data

instance (text name : String) : Decidable (Mentions text name) := by
  unfold Mentions; infer_instance

/-- The enqueue signal an element of an index lookup result gives rise to: the
pair of namespace and name for a binding, nothing for anything else. -/
def enqueueSignal : Object → Option (String × String)
  | .prtb b => some (b.Namespace, b.Name)
  | .other _ => none

/-! ## A fleet of downstream stores

An outside world for `Remove` in which every cluster has a store of cluster
roles, lookups and deletes act on that store, and failures can be injected per
cluster. -/

/-- The state of the fleet: the pairs (cluster name, cluster role name) of the
cluster roles that exist. -/
abbrev Fleet := List (String × String)

/-- Failures injected per cluster name into context acquisition, lookup and
delete. -/
structure Faults where
  context : String → Option GoError
  lookup : String → Option GoError
  delete : String → Option GoError

/-- No injected failure. -/
def noFaults : Faults :=
  { context := fun _ => none, lookup := fun _ => none, delete := fun _ => none }

/-- The "not found" error of a downstream store. -/
def notFoundError (name : String) : GoError :=
  { Error := "clusterrole " ++ name ++ " not found", clusterUnavailable := false,
    notFound := true }

/-- The fleet as collaborators of `Remove`: the registry lists `snapshot`; a user
context is the name of its cluster; a lookup finds the cluster role exactly when
the store of the cluster holds it; a delete removes it when it is there and answers
"not found" when it is not (the contract of the remote permission-object store:
`get(name)` and `delete(name)` answer ok, "not found" or another error).  An
injected failure makes the call fail and leaves the fleet as it is. -/
def fleetWorld (snapshot : List Cluster) (faults : Faults) : RemoveCollaborators Fleet String where
  clusters_List := fun w => (.ok { Items := snapshot }, w)
  UserContext := fun clusterName w =>
    match faults.context clusterName with
    | some err => (.error err, w)
    | none => (.ok clusterName, w)
  ClusterRoles_Get := fun userContext name w =>
    match faults.lookup userContext with
    | some err => (.error err, w)
    | none => if (userContext, name) ∈ w then (.ok { Name := name }, w)
              else (.error (notFoundError name), w)
  ClusterRoles_Delete := fun userContext name w =>
    match faults.delete userContext with
    | some err => (some err, w)
    | none => if (userContext, name) ∈ w then (none, w.filter (fun p => p ≠ (userContext, name)))
              else (some (notFoundError name), w)

/-! ## Concrete fleets -/

/-- The template `T1`. -/
def T1 : RoleTemplate := { Name := "T1" }

/-- The snapshot of three clusters `clusterA`, `clusterB`, `clusterC`. -/
def exampleSnapshot : List Cluster :=
  [{ Name := "clusterA" }, { Name := "clusterB" }, { Name := "clusterC" }]

/-- A fleet state in which only `clusterA` holds the mirror of `T1`. -/
def onlyAHoldsT1 : Fleet := [("clusterA", "T1")]

/-- A fleet state in which `clusterA` and `clusterC` hold the mirror of `T1`. -/
def aAndCHoldT1 : Fleet := [("clusterA", "T1"), ("clusterC", "T1")]

/-- The "cluster unavailable" error of the cluster manager. -/
def clusterUnavailableError : GoError :=
  { Error := "ClusterUnavailable 503", clusterUnavailable := true, notFound := false }

/-- An error that is neither "cluster unavailable" nor "not found". -/
def forbiddenError : GoError :=
  { Error := "forbidden", clusterUnavailable := false, notFound := false }

/-- The context of `clusterB` cannot be obtained: the cluster is unavailable. -/
def clusterBUnreachable : Faults :=
  { context := fun c => if c = "clusterB" then some clusterUnavailableError else none,
    lookup := fun _ => none,
    delete := fun _ => none }

/-- The delete on `clusterA` fails with `forbiddenError`. -/
def clusterADeleteForbidden : Faults :=
  { context := fun _ => none,
    lookup := fun _ => none,
    delete := fun c => if c = "clusterA" then some forbiddenError else none }

/-- A connection error, neither "cluster unavailable" nor "not found". -/
def dialError : GoError :=
  { Error := "dial tcp: i/o timeout", clusterUnavailable := false, notFound := false }

/-- A lister error, neither "cluster unavailable" nor "not found". -/
def cacheError : GoError :=
  { Error := "cache not synced", clusterUnavailable := false, notFound := false }

/-- Every cluster fails, each at another step: the delete on `clusterA` is
forbidden, the context of `clusterB` is refused with `dialError`, the lookup on
`clusterC` fails with `cacheError`. -/
def threeFailures : Faults :=
  { context := fun c => if c = "clusterB" then some dialError else none,
    lookup := fun c => if c = "clusterC" then some cacheError else none,
    delete := fun c => if c = "clusterA" then some forbiddenError else none }

/-- The delete on `clusterA` fails with an error whose own text names the
cluster. -/
def clusterADeleteForbiddenNamed : Faults :=
  { context := fun _ => none,
    lookup := fun _ => none,
    delete := fun c =>
      if c = "clusterA" then
        some { Error := "clusterA: forbidden", clusterUnavailable := false, notFound := false }
      else none }

/-- A world in which listing the cluster registry fails. -/
def registryDown : RemoveCollaborators Fleet String :=
  { fleetWorld exampleSnapshot noFaults with
    clusters_List := fun w =>
      (.error { Error := "registry down", clusterUnavailable := false, notFound := false }, w) }

/-! ## Concrete indexers -/

/-- The binding `p1/b1`, which references `T1`. -/
def b1 : ProjectRoleTemplateBinding := { Namespace := "p1", Name := "b1", RoleTemplateName := "T1" }

/-- The binding `p2/b2`, which references `T1`. -/
def b2 : ProjectRoleTemplateBinding := { Namespace := "p2", Name := "b2", RoleTemplateName := "T1" }

/-- An indexer that answers the lookup of `T1` in the index of this handler with
`b1`, an object that is not a binding, and `b2`, and every other lookup with the
empty list.  The state of the outside world is the work queue of the binding
controller, to which `Enqueue` appends. -/
def exampleIndexer : EnqueueCollaborators (List (String × String)) where
  prtbIndexer_ByIndex := fun indexName indexedValue w =>
    if indexName = prtbByRoleTemplateIndex ∧ indexedValue = "T1" then
      (.ok [Object.prtb b1, Object.other "v1.Secret", Object.prtb b2], w)
    else (.ok [], w)
  Enqueue := fun ns name w => w ++ [(ns, name)]

/-- The error of an indexer that does not know the index. -/
def indexMissingError : GoError :=
  { Error := "Index with name management.cattle.io/prtb-by-role-template does not exist",
    clusterUnavailable := false, notFound := false }

/-- An indexer whose every lookup fails. -/
def indexerDown : EnqueueCollaborators (List (String × String)) where
  prtbIndexer_ByIndex := fun _ _ w => (.error indexMissingError, w)
  Enqueue := fun ns name w => w ++ [(ns, name)]

/-! ## The reverse index -/

/-- The identifier of a binding: namespace and name. -/
def bindingId (b : ProjectRoleTemplateBinding) : String × String := (b.Namespace, b.Name)

/-- Modelled from the spec: the reverse index itself (the informer's indexer, of
which the source only registers the key function) is not in the source.  Per the
spec it holds the indexed bindings by identifier and, per key, the identifiers of
the bindings filed under that key. -/
structure ReverseIndex where
  /-- The indexed bindings, by identifier. -/
  items : List ((String × String) × ProjectRoleTemplateBinding)
  /-- The index entries: a key and the identifier of a binding filed under it. -/
  entries : List (String × (String × String))
deriving DecidableEq, Repr

/-- Modelled from the spec: the empty reverse index. -/
def ReverseIndex.empty : ReverseIndex := { items := [], entries := [] }

/-- Modelled from the spec: `update(binding)` (re)computes the keys of the binding
with `prtbByRoleTemplate`, drops every prior association of the same binding
identifier, and files the binding under its keys. -/
def ReverseIndex.update (idx : ReverseIndex) (b : ProjectRoleTemplateBinding) : ReverseIndex :=
  let id := bindingId b
  let keys := (prtbByRoleTemplate (.prtb b)).1
  { items := idx.items.filter (fun p => p.1 ≠ id) ++ [(id, b)],
    entries := idx.entries.filter (fun e => e.2 ≠ id) ++ keys.map (fun k => (k, id)) }

/-- Modelled from the spec: `lookup(templateName)` returns the indexed bindings
whose identifier is filed under the key `templateName`. -/
def ReverseIndex.lookup (idx : ReverseIndex) (templateName : String) :
    List ProjectRoleTemplateBinding :=
  (idx.entries.filter (fun e => e.1 = templateName)).filterMap
    (fun e => (idx.items.find? (fun p => p.1 = e.2)).map Prod.snd)

/-- Modelled from the spec: the reverse index after the change feed has delivered
an `update` for each binding of `bs`, in order. -/
def ReverseIndex.build (bs : List ProjectRoleTemplateBinding) : ReverseIndex :=
  bs.foldl ReverseIndex.update ReverseIndex.empty


/-- The binding `p1/b3`, which references `T2`. -/
def b3 : ProjectRoleTemplateBinding := { Namespace := "p1", Name := "b3", RoleTemplateName := "T2" }

/-- The invariant of the reverse index: identifiers are not repeated, every binding
is stored under its own identifier, and the entries are exactly the associations
(role template name, identifier) of the stored bindings. -/
def ReverseIndex.WellFormed (idx : ReverseIndex) : Prop :=
  (idx.items.map Prod.fst).Nodup ∧
  (∀ p ∈ idx.items, p.1 = bindingId p.2) ∧
  idx.entries = idx.items.map (fun p => (p.2.RoleTemplateName, p.1))

/-! ## The loop of `Remove` -/

/-- One iteration appends the calls of one visit of the cluster and the unexpected
errors among them, and touches nothing collected before. -/
theorem removeCluster_visit {σ Ctx : Type} (rtl : RemoveCollaborators σ Ctx) (obj : RoleTemplate)
    (st : RemoveLoop σ Ctx) (cluster : Cluster) :
    ∃ seg : List (Call Ctx), VisitCalls obj cluster seg ∧
      (removeCluster rtl obj st cluster).calls = st.calls ++ seg ∧
      (removeCluster rtl obj st cluster).allErrors
        = st.allErrors ++ seg.filterMap Call.unexpected := by
  unfold removeCluster
  split
  · rename_i err w1 _
    refine ⟨_, VisitCalls.contextFailed err, ?_, ?_⟩
    · split <;> rfl
    · cases h : IsClusterUnavailable err <;> simp [Call.unexpected, h]
  · rename_i userContext w1 _
    split
    · rename_i err w2 _
      refine ⟨_, VisitCalls.lookupFailed userContext err, ?_, ?_⟩
      · split <;> simp
      · cases h : IsNotFound err <;> simp [Call.unexpected, h]
    · rename_i b w2 _
      split
      · rename_i err w3 _
        refine ⟨_, VisitCalls.deleteIssued userContext b (some err), ?_, ?_⟩
        · split <;> simp
        · cases h : IsNotFound err <;> simp [Call.unexpected, h]
      · rename_i w3 _
        exact ⟨_, VisitCalls.deleteIssued userContext b none, by simp, by simp [Call.unexpected]⟩

/-- The loop appends, cluster by cluster and in the order of the list, the calls of
one visit per cluster, and collects the unexpected errors among them in order. -/
theorem foldl_removeCluster_visits {σ Ctx : Type} (rtl : RemoveCollaborators σ Ctx)
    (obj : RoleTemplate) (clusters : List Cluster) (st : RemoveLoop σ Ctx) :
    ∃ segs : List (List (Call Ctx)), List.Forall₂ (VisitCalls obj) clusters segs ∧
      (clusters.foldl (removeCluster rtl obj) st).calls = st.calls ++ segs.flatten ∧
      (clusters.foldl (removeCluster rtl obj) st).allErrors
        = st.allErrors ++ segs.flatten.filterMap Call.unexpected := by
  induction clusters generalizing st with
  | nil => exact ⟨[], List.Forall₂.nil, by simp, by simp⟩
  | cons c cs ih =>
    obtain ⟨seg, hseg, hcalls, herrs⟩ := removeCluster_visit rtl obj st c
    obtain ⟨segs, hsegs, hcalls2, herrs2⟩ := ih (removeCluster rtl obj st c)
    refine ⟨seg :: segs, List.Forall₂.cons hseg hsegs, ?_, ?_⟩
    · simp only [List.foldl_cons, hcalls2, hcalls, List.flatten_cons, List.append_assoc]
    · simp only [List.foldl_cons, herrs2, herrs, List.flatten_cons, List.append_assoc,
        List.filterMap_append]

/-- The loop of `Remove`, started afresh: its calls are one visit per cluster of the
snapshot, in order, and its collected errors are the unexpected errors among
those calls, in order. -/
theorem removeLoop_visits {σ Ctx : Type} (rtl : RemoveCollaborators σ Ctx)
    (obj : RoleTemplate) (clusters : ClusterList) (w : σ) :
    ∃ segs : List (List (Call Ctx)), List.Forall₂ (VisitCalls obj) clusters.Items segs ∧
      (removeLoop rtl obj clusters w).calls = segs.flatten ∧
      (removeLoop rtl obj clusters w).allErrors = segs.flatten.filterMap Call.unexpected := by
  obtain ⟨segs, h1, h2, h3⟩ := foldl_removeCluster_visits rtl obj clusters.Items
    { allErrors := [], calls := [], world := w }
  exact ⟨segs, h1, by simpa [removeLoop] using h2, by simpa [removeLoop] using h3⟩

/-- What `Remove` returns once the registry has been listed, in terms of the loop. -/
theorem Remove_of_listed {σ Ctx : Type} (rtl : RemoveCollaborators σ Ctx) (obj : RoleTemplate)
    (w w0 : σ) (clusters : ClusterList) (hlist : rtl.clusters_List w = (.ok clusters, w0)) :
    (Remove rtl obj w).obj = some obj ∧
    (Remove rtl obj w).calls = (removeLoop rtl obj clusters w0).calls ∧
    (Remove rtl obj w).world = (removeLoop rtl obj clusters w0).world ∧
    (Remove rtl obj w).err =
      if (removeLoop rtl obj clusters w0).allErrors = [] then none
      else some (Errorf ("errors deleting dowstream clusterRole: "
        ++ formatErrors (removeLoop rtl obj clusters w0).allErrors)) := by
  unfold Remove
  rw [hlist]
  simp only
  cases h : (removeLoop rtl obj clusters w0).allErrors with
  | nil => simp
  | cons e es => simp


/-- A visit has an unexpected error among its calls exactly when it fails. -/
theorem visit_unexpected_iff_fails {Ctx : Type} (obj : RoleTemplate) (cluster : Cluster)
    (seg : List (Call Ctx)) (h : VisitCalls obj cluster seg) :
    seg.filterMap Call.unexpected ≠ [] ↔ VisitFails obj cluster seg := by
  cases h with
  | contextFailed err =>
    cases hu : IsClusterUnavailable err <;> simp [VisitFails, Call.unexpected, hu]
  | lookupFailed userContext err =>
    cases hu : IsNotFound err
    · have hl : List.filterMap Call.unexpected
          [Call.UserContext cluster.Name (.ok userContext),
           Call.Get cluster.Name obj.Name (.error err)] = [err] := by
        simp [Call.unexpected, hu]
      rw [hl]
      exact ⟨fun _ => Or.inr (Or.inl ⟨userContext, err, rfl, hu⟩), fun _ => by simp⟩
    · have hl : List.filterMap Call.unexpected
          [Call.UserContext cluster.Name (.ok userContext),
           Call.Get cluster.Name obj.Name (.error err)] = [] := by
        simp [Call.unexpected, hu]
      rw [hl]
      refine ⟨fun h => absurd rfl h, ?_⟩
      rintro (⟨e, h, _⟩ | ⟨uc, e, h, he⟩ | ⟨uc, b, e, h, _⟩)
      · simp at h
      · simp only [List.cons.injEq, Call.Get.injEq, Except.error.injEq] at h
        rw [← h.2.1.2.2, hu] at he
        exact absurd he (by decide)
      · simp at h
  | deleteIssued userContext b result =>
    cases result with
    | none => simp [VisitFails, Call.unexpected]
    | some err =>
      cases hu : IsNotFound err
      · have hl : List.filterMap Call.unexpected
            [Call.UserContext cluster.Name (.ok userContext),
             Call.Get cluster.Name obj.Name (.ok b),
             Call.Delete cluster.Name b.Name (some err)] = [err] := by
          simp [Call.unexpected, hu]
        rw [hl]
        exact ⟨fun _ => Or.inr (Or.inr ⟨userContext, b, err, rfl, hu⟩), fun _ => by simp⟩
      · have hl : List.filterMap Call.unexpected
            [Call.UserContext cluster.Name (.ok userContext),
             Call.Get cluster.Name obj.Name (.ok b),
             Call.Delete cluster.Name b.Name (some err)] = [] := by
          simp [Call.unexpected, hu]
        rw [hl]
        refine ⟨fun h => absurd rfl h, ?_⟩
        rintro (⟨e, h, _⟩ | ⟨uc, e, h, _⟩ | ⟨uc, b2, e, h, he⟩)
        · simp at h
        · simp at h
        · simp only [List.cons.injEq, Call.Delete.injEq, Option.some.injEq] at h
          rw [← h.2.2.1.2.2, hu] at he
          exact absurd he (by decide)

/-- A visit contributes at most one unexpected error: its first one. -/
theorem visit_unexpected_eq {Ctx : Type} (obj : RoleTemplate) (cluster : Cluster)
    (seg : List (Call Ctx)) (h : VisitCalls obj cluster seg) :
    seg.filterMap Call.unexpected = (visitError seg).toList := by
  cases h with
  | contextFailed err =>
    cases hu : IsClusterUnavailable err <;> simp [visitError, Call.unexpected, hu]
  | lookupFailed userContext err =>
    cases hu : IsNotFound err <;> simp [visitError, Call.unexpected, hu]
  | deleteIssued userContext b result =>
    cases result with
    | none => simp [visitError, Call.unexpected]
    | some err => cases hu : IsNotFound err <;> simp [visitError, Call.unexpected, hu]

/-- Some unexpected error occurs among the calls of a run of visits exactly when
one of the visits fails. -/
theorem visits_unexpected_iff {Ctx : Type} (obj : RoleTemplate) (clusters : List Cluster)
    (segs : List (List (Call Ctx))) (h : List.Forall₂ (VisitCalls obj) clusters segs) :
    segs.flatten.filterMap Call.unexpected ≠ [] ↔
      ∃ p ∈ clusters.zip segs, VisitFails obj p.1 p.2 := by
  induction h with
  | nil => simp
  | cons hseg _ ih =>
    rw [List.flatten_cons, List.filterMap_append, List.zip_cons_cons]
    simp only [ne_eq, List.append_eq_nil, not_and_or, List.mem_cons, exists_eq_or_imp]
    rw [← ne_eq, ← ne_eq, visit_unexpected_iff_fails _ _ _ hseg, ih]

/-- The unexpected errors among the calls of a run of visits are the first
unexpected errors of the visits, one per failing visit, in order. -/
theorem visits_unexpected_eq {Ctx : Type} (obj : RoleTemplate) (clusters : List Cluster)
    (segs : List (List (Call Ctx))) (h : List.Forall₂ (VisitCalls obj) clusters segs) :
    segs.flatten.filterMap Call.unexpected = segs.filterMap visitError := by
  induction h with
  | nil => simp
  | cons hseg _ ih =>
    rename_i c seg cs segs' _
    rw [List.flatten_cons, List.filterMap_append, ih, visit_unexpected_eq _ _ _ hseg,
      List.filterMap_cons]
    cases visitError seg <;> simp

/-! ## `Remove`: the claims -/

/-- Under the contract of the lister (a lookup by name returns an object of that
name), one iteration only adds deletes of `obj.Name`. -/
theorem removeCluster_delete_name {σ Ctx : Type} (rtl : RemoveCollaborators σ Ctx)
    (obj : RoleTemplate)
    (hlister : ∀ userContext name s b s',
      rtl.ClusterRoles_Get userContext name s = (.ok b, s') → b.Name = name)
    (st : RemoveLoop σ Ctx) (cluster : Cluster)
    (hst : ∀ c n r, Call.Delete c n r ∈ st.calls → n = obj.Name) :
    ∀ c n r, Call.Delete c n r ∈ (removeCluster rtl obj st cluster).calls → n = obj.Name := by
  intro c n r
  unfold removeCluster
  split
  · split <;> simpa using hst c n r
  · rename_i userContext w1 _
    split
    · split <;> simpa using hst c n r
    · rename_i b w2 hget
      have hb : b.Name = obj.Name := hlister _ _ _ _ _ hget
      split
      · split <;>
        · simp only [List.append_assoc, List.mem_append, List.mem_cons, List.mem_singleton,
            List.not_mem_nil, or_false, Call.Delete.injEq, reduceCtorEq, false_or]
          rintro (h | h)
          · exact hst c n r h
          · rw [h.2.1, hb]
      · simp only [List.append_assoc, List.mem_append, List.mem_cons, List.mem_singleton,
          List.not_mem_nil, or_false, Call.Delete.injEq, reduceCtorEq, false_or]
        rintro (h | h)
        · exact hst c n r h
        · rw [h.2.1, hb]

/-- Under the contract of the lister, the loop only adds deletes of `obj.Name`. -/
theorem foldl_removeCluster_delete_name {σ Ctx : Type} (rtl : RemoveCollaborators σ Ctx)
    (obj : RoleTemplate)
    (hlister : ∀ userContext name s b s',
      rtl.ClusterRoles_Get userContext name s = (.ok b, s') → b.Name = name)
    (clusters : List Cluster) (st : RemoveLoop σ Ctx)
    (hst : ∀ c n r, Call.Delete c n r ∈ st.calls → n = obj.Name) :
    ∀ c n r, Call.Delete c n r ∈ (clusters.foldl (removeCluster rtl obj) st).calls →
      n = obj.Name := by
  induction clusters generalizing st with
  | nil => simpa using hst
  | cons c cs ih =>
    rw [List.foldl_cons]
    exact ih _ (removeCluster_delete_name rtl obj hlister st c hst)

/-- Every call of a run of visits is made for one of the visited clusters. -/
theorem visits_clusterName {Ctx : Type} (obj : RoleTemplate) (clusters : List Cluster)
    (segs : List (List (Call Ctx))) (h : List.Forall₂ (VisitCalls obj) clusters segs) :
    ∀ call ∈ segs.flatten, ∃ cluster ∈ clusters, call.clusterName = cluster.Name := by
  induction h with
  | nil => simp
  | cons hseg _ ih =>
    rename_i c seg cs segs' _
    intro call hcall
    rw [List.flatten_cons, List.mem_append] at hcall
    rcases hcall with hcall | hcall
    · refine ⟨c, List.mem_cons_self _ _, ?_⟩
      cases hseg <;> simp only [List.mem_cons, List.mem_singleton, List.not_mem_nil,
        or_false] at hcall <;> rcases hcall with rfl | rfl | rfl <;> rfl
    · obtain ⟨c', hc', hn⟩ := ih call hcall
      exact ⟨c', List.mem_cons_of_mem _ hc', hn⟩

/-- C1: once the cluster registry has been listed, the calls of `Remove` are one
visit per cluster of the snapshot, in order, and `Remove` returns an error if and
only if some cluster of the snapshot has a failing visit: (a) its context is
refused with an error that is not "cluster unavailable", or (b) its context is
obtained and the lookup of `obj.Name` fails with an error that is not "not
found", or (c) context and lookup succeed and the delete fails with an error that
is not "not found". -/
theorem Remove_fails_iff_some_visit_fails {σ Ctx : Type} (rtl : RemoveCollaborators σ Ctx)
    (obj : RoleTemplate) (w w0 : σ) (clusters : ClusterList)
    (hlist : rtl.clusters_List w = (.ok clusters, w0)) :
    ∃ segs : List (List (Call Ctx)),
      List.Forall₂ (VisitCalls obj) clusters.Items segs ∧
      (Remove rtl obj w).calls = segs.flatten ∧
      ((Remove rtl obj w).err ≠ none ↔
        ∃ p ∈ clusters.Items.zip segs, VisitFails obj p.1 p.2) := by
  obtain ⟨segs, hsegs, hcalls, herrs⟩ := removeLoop_visits rtl obj clusters w0
  obtain ⟨_, hc, _, he⟩ := Remove_of_listed rtl obj w w0 clusters hlist
  refine ⟨segs, hsegs, hc.trans hcalls, ?_⟩
  rw [he, ← visits_unexpected_iff obj clusters.Items segs hsegs, ← herrs]
  split <;> simp_all

/-- C1, on the fleet of the spec: `clusterA` reachable with the mirror, `clusterB`
unreachable, `clusterC` reachable without the mirror.  `Remove` succeeds and the
mirror of `clusterA` is gone. -/
theorem Remove_fails_iff_some_visit_fails_witness :
    (Remove (fleetWorld exampleSnapshot clusterBUnreachable) T1 onlyAHoldsT1).err = none ∧
    (Remove (fleetWorld exampleSnapshot clusterBUnreachable) T1 onlyAHoldsT1).world = [] ∧
    ∃ segs : List (List (Call String)),
      List.Forall₂ (VisitCalls T1) exampleSnapshot segs ∧
      (Remove (fleetWorld exampleSnapshot clusterBUnreachable) T1 onlyAHoldsT1).calls
        = segs.flatten ∧
      ((Remove (fleetWorld exampleSnapshot clusterBUnreachable) T1 onlyAHoldsT1).err ≠ none ↔
        ∃ p ∈ exampleSnapshot.zip segs, VisitFails T1 p.1 p.2) :=
  ⟨by decide, by decide,
    Remove_fails_iff_some_visit_fails (fleetWorld exampleSnapshot clusterBUnreachable) T1
      onlyAHoldsT1 onlyAHoldsT1 { Items := exampleSnapshot } rfl⟩

/-- C2: once the cluster registry has been listed, the calls of `Remove` are one
visit per cluster of the snapshot, in order, each of one of three shapes: context
refused (no lookup, no delete); context obtained and lookup failed, with "not
found" or any other error (no delete); context obtained, lookup succeeded with
`b`, and exactly one delete of `b.Name`.  The shape of a visit is fixed by the
results of its own calls, and every call is made for a cluster of the snapshot.
When the lister keeps its contract (a lookup by name returns an object of that
name), every delete is a delete of `obj.Name`. -/
theorem Remove_deletes_exactly_where_found {σ Ctx : Type} (rtl : RemoveCollaborators σ Ctx)
    (obj : RoleTemplate) (w w0 : σ) (clusters : ClusterList)
    (hlist : rtl.clusters_List w = (.ok clusters, w0)) :
    ∃ segs : List (List (Call Ctx)),
      List.Forall₂ (VisitCalls obj) clusters.Items segs ∧
      (Remove rtl obj w).calls = segs.flatten ∧
      (∀ call ∈ (Remove rtl obj w).calls,
        ∃ cluster ∈ clusters.Items, call.clusterName = cluster.Name) ∧
      ((∀ userContext name s b s',
          rtl.ClusterRoles_Get userContext name s = (.ok b, s') → b.Name = name) →
        ∀ c n r, Call.Delete c n r ∈ (Remove rtl obj w).calls → n = obj.Name) := by
  obtain ⟨segs, hsegs, hcalls, _⟩ := removeLoop_visits rtl obj clusters w0
  obtain ⟨_, hc, _, _⟩ := Remove_of_listed rtl obj w w0 clusters hlist
  refine ⟨segs, hsegs, hc.trans hcalls, ?_, ?_⟩
  · rw [hc, hcalls]
    exact visits_clusterName obj clusters.Items segs hsegs
  intro hlister
  rw [hc]
  exact foldl_removeCluster_delete_name rtl obj hlister clusters.Items _ (by simp)

/-- C3: if listing the cluster registry fails with `e`, `Remove` returns `obj`
together with `e` itself, and makes no call for any cluster. -/
theorem Remove_list_error {σ Ctx : Type} (rtl : RemoveCollaborators σ Ctx) (obj : RoleTemplate)
    (w w0 : σ) (e : GoError) (hlist : rtl.clusters_List w = (.error e, w0)) :
    (Remove rtl obj w).err = some e ∧ (Remove rtl obj w).obj = some obj ∧
    (Remove rtl obj w).calls = [] ∧ (Remove rtl obj w).world = w0 := by
  unfold Remove
  rw [hlist]
  exact ⟨rfl, rfl, rfl, rfl⟩

/-- C3, on a fleet whose registry is down. -/
theorem Remove_list_error_witness :
    (Remove registryDown T1 aAndCHoldT1).err
      = some { Error := "registry down", clusterUnavailable := false, notFound := false } ∧
    (Remove registryDown T1 aAndCHoldT1).obj = some T1 ∧
    (Remove registryDown T1 aAndCHoldT1).calls = [] ∧
    (Remove registryDown T1 aAndCHoldT1).world = aAndCHoldT1 :=
  Remove_list_error registryDown T1 aAndCHoldT1 aAndCHoldT1 _ rfl
/-- The lookups of `fleetWorld` keep the contract of the lister: a lookup by name
returns an object of that name. -/
theorem fleetWorld_lister_contract (snapshot : List Cluster) (faults : Faults) :
    ∀ userContext name s b s',
      (fleetWorld snapshot faults).ClusterRoles_Get userContext name s = (.ok b, s') →
        b.Name = name := by
  intro userContext name s b s' h
  simp only [fleetWorld] at h
  split at h
  · simp at h
  · split at h
    · simp only [Prod.mk.injEq, Except.ok.injEq] at h
      rw [← h.1]
    · simp at h

/-- C2, on a fleet where `clusterA` and `clusterC` hold the mirror and `clusterB`
is unreachable: the deletes are issued on `clusterA` and `clusterC`, once each, and
on `T1`. -/
theorem Remove_deletes_exactly_where_found_witness :
    (Remove (fleetWorld exampleSnapshot clusterBUnreachable) T1 aAndCHoldT1).calls =
      [Call.UserContext "clusterA" (.ok "clusterA"),
       Call.Get "clusterA" "T1" (.ok { Name := "T1" }),
       Call.Delete "clusterA" "T1" none,
       Call.UserContext "clusterB" (.error clusterUnavailableError),
       Call.UserContext "clusterC" (.ok "clusterC"),
       Call.Get "clusterC" "T1" (.ok { Name := "T1" }),
       Call.Delete "clusterC" "T1" none] ∧
    ∃ segs : List (List (Call String)),
      List.Forall₂ (VisitCalls T1) exampleSnapshot segs ∧
      (Remove (fleetWorld exampleSnapshot clusterBUnreachable) T1 aAndCHoldT1).calls
        = segs.flatten ∧
      ∀ c n r, Call.Delete c n r ∈
        (Remove (fleetWorld exampleSnapshot clusterBUnreachable) T1 aAndCHoldT1).calls →
          n = T1.Name := by
  refine ⟨by rfl, ?_⟩
  obtain ⟨segs, h1, h2, _, h3⟩ := Remove_deletes_exactly_where_found
    (fleetWorld exampleSnapshot clusterBUnreachable) T1 aAndCHoldT1 aAndCHoldT1
    { Items := exampleSnapshot } rfl
  exact ⟨segs, h1, h2, h3 (fleetWorld_lister_contract _ _)⟩

/-- The `%v` rendering of a slice holding one error. -/
theorem formatErrors_singleton (e : GoError) : formatErrors [e] = "[" ++ e.Error ++ "]" := by
  simp [formatErrors, String.intercalate, String.intercalate.go]

/-- The characters of the accumulating loop of `String.intercalate`. -/
theorem intercalate_go_data (acc sep : String) (l : List String) :
    (String.intercalate.go acc sep l).data
      = acc.data ++ (l.map (fun a => sep.data ++ a.data)).flatten := by
  induction l generalizing acc with
  | nil => simp [String.intercalate.go]
  | cons a as ih =>
    rw [String.intercalate.go, ih]
    simp [String.data_append, List.append_assoc]

/-- Joining lists with a separator: the first list, then every other list
preceded by the separator. -/
theorem list_intercalate_cons {α : Type} (sep x : List α) (xs : List (List α)) :
    List.intercalate sep (x :: xs) = x ++ (xs.map (fun a => sep ++ a)).flatten := by
  unfold List.intercalate
  induction xs generalizing x with
  | nil => simp
  | cons y ys ih =>
    rw [List.intersperse_cons₂, List.flatten_cons, List.flatten_cons, ih]
    simp

/-- The characters of `String.intercalate` are the character lists of the
pieces joined by the characters of the separator. -/
theorem intercalate_data (sep : String) (l : List String) :
    (sep.intercalate l).data = List.intercalate sep.data (l.map String.data) := by
  cases l with
  | nil => rfl
  | cons a as =>
    rw [String.intercalate, intercalate_go_data, List.map_cons, list_intercalate_cons,
      List.map_map]
    rfl

/-- The `%v` rendering of a slice of errors, character by character: an opening
bracket, the texts of the errors separated by one blank, a closing bracket. -/
theorem formatErrors_data (errs : List GoError) :
    (formatErrors errs).data
      = "[".data ++ List.intercalate " ".data (errs.map (fun e => e.Error.data)) ++ "]".data := by
  unfold formatErrors
  rw [String.data_append, String.data_append, intercalate_data, List.map_map]
  rfl

/-- C5: once the cluster registry has been listed, the list `allErrors` from which
the aggregate is built holds, in the order of the clusters of the snapshot, the
first unexpected error of each visit that has one, unchanged: one entry per
failing cluster and none for any other; it holds every unexpected error among
the calls made; and the returned error is `nil` when the list is empty and
otherwise an error whose `Error()` text is, character by character,
"errors deleting dowstream clusterRole: " followed by an opening bracket, the
texts of all the entries of the list in order, separated by one blank, and a
closing bracket. -/
theorem Remove_collects_every_unexpected_error {σ Ctx : Type} (rtl : RemoveCollaborators σ Ctx)
    (obj : RoleTemplate) (w w0 : σ) (clusters : ClusterList)
    (hlist : rtl.clusters_List w = (.ok clusters, w0)) :
    ∃ segs : List (List (Call Ctx)),
      List.Forall₂ (VisitCalls obj) clusters.Items segs ∧
      (Remove rtl obj w).calls = segs.flatten ∧
      (removeLoop rtl obj clusters w0).allErrors = segs.filterMap visitError ∧
      (removeLoop rtl obj clusters w0).allErrors
        = (Remove rtl obj w).calls.filterMap Call.unexpected ∧
      (∀ p ∈ clusters.Items.zip segs, (visitError p.2 ≠ none ↔ VisitFails obj p.1 p.2)) ∧
      (Remove rtl obj w).err =
        (if (removeLoop rtl obj clusters w0).allErrors = [] then none
        else some (Errorf ("errors deleting dowstream clusterRole: "
          ++ formatErrors (removeLoop rtl obj clusters w0).allErrors))) ∧
      (Remove rtl obj w).err.map (fun err => err.Error.data) =
        (if (removeLoop rtl obj clusters w0).allErrors = [] then none
        else some ("errors deleting dowstream clusterRole: ".data ++ "[".data
          ++ List.intercalate " ".data
              ((removeLoop rtl obj clusters w0).allErrors.map (fun e => e.Error.data))
          ++ "]".data)) := by
  obtain ⟨segs, hsegs, hcalls, herrs⟩ := removeLoop_visits rtl obj clusters w0
  obtain ⟨_, hc, _, he⟩ := Remove_of_listed rtl obj w w0 clusters hlist
  refine ⟨segs, hsegs, hc.trans hcalls, ?_, ?_, ?_, he, ?_⟩
  · rw [herrs, visits_unexpected_eq obj clusters.Items segs hsegs]
  · rw [herrs, hc, hcalls]
  · intro p hp
    have hv : VisitCalls obj p.1 p.2 := (List.forall₂_iff_zip.mp hsegs).2 hp
    rw [← visit_unexpected_iff_fails obj p.1 p.2 hv, visit_unexpected_eq obj p.1 p.2 hv]
    cases visitError p.2 <;> simp
  · rw [he]
    by_cases hnil : (removeLoop rtl obj clusters w0).allErrors = []
    · rw [if_pos hnil, if_pos hnil]
      rfl
    · rw [if_neg hnil, if_neg hnil, Option.map_some']
      simp only [Errorf, String.data_append, formatErrors_data, List.append_assoc]

/-- C5, on a fleet where every cluster fails, each at another step: the delete on
`clusterA` is forbidden, the context of `clusterB` is refused, the lookup on
`clusterC` fails.  The three errors are collected in the order of the snapshot
and all three are rendered in the text of the returned error. -/
theorem Remove_collects_every_unexpected_error_witness :
    (removeLoop (fleetWorld exampleSnapshot threeFailures) T1
      { Items := exampleSnapshot } aAndCHoldT1).allErrors
        = [forbiddenError, dialError, cacheError] ∧
    (Remove (fleetWorld exampleSnapshot threeFailures) T1 aAndCHoldT1).err.map GoError.Error
      = some "errors deleting dowstream clusterRole: [forbidden dial tcp: i/o timeout cache not synced]" ∧
    ∃ segs : List (List (Call String)),
      List.Forall₂ (VisitCalls T1) exampleSnapshot segs ∧
      (Remove (fleetWorld exampleSnapshot threeFailures) T1 aAndCHoldT1).calls
        = segs.flatten ∧
      (removeLoop (fleetWorld exampleSnapshot threeFailures) T1
        { Items := exampleSnapshot } aAndCHoldT1).allErrors = segs.filterMap visitError ∧
      (removeLoop (fleetWorld exampleSnapshot threeFailures) T1
        { Items := exampleSnapshot } aAndCHoldT1).allErrors
        = (Remove (fleetWorld exampleSnapshot threeFailures) T1
            aAndCHoldT1).calls.filterMap Call.unexpected ∧
      (∀ p ∈ exampleSnapshot.zip segs, (visitError p.2 ≠ none ↔ VisitFails T1 p.1 p.2)) ∧
      (Remove (fleetWorld exampleSnapshot threeFailures) T1 aAndCHoldT1).err =
        (if (removeLoop (fleetWorld exampleSnapshot threeFailures) T1
            { Items := exampleSnapshot } aAndCHoldT1).allErrors = [] then none
        else some (Errorf ("errors deleting dowstream clusterRole: "
          ++ formatErrors (removeLoop (fleetWorld exampleSnapshot threeFailures) T1
            { Items := exampleSnapshot } aAndCHoldT1).allErrors))) ∧
      (Remove (fleetWorld exampleSnapshot threeFailures) T1 aAndCHoldT1).err.map
          (fun err => err.Error.data) =
        (if (removeLoop (fleetWorld exampleSnapshot threeFailures) T1
            { Items := exampleSnapshot } aAndCHoldT1).allErrors = [] then none
        else some ("errors deleting dowstream clusterRole: ".data ++ "[".data
          ++ List.intercalate " ".data
              ((removeLoop (fleetWorld exampleSnapshot threeFailures) T1
                { Items := exampleSnapshot } aAndCHoldT1).allErrors.map
                  (fun e => e.Error.data))
          ++ "]".data)) :=
  ⟨by decide, by decide,
    Remove_collects_every_unexpected_error (fleetWorld exampleSnapshot threeFailures)
      T1 aAndCHoldT1 aAndCHoldT1 { Items := exampleSnapshot } rfl⟩

/-- C4, amended: once the cluster registry has been listed, if exactly one call of
the run records an error and it is the delete on cluster `c`, failing with an
error `e` that is not "not found", then `Remove` returns an error whose `Error()`
text is exactly "errors deleting dowstream clusterRole: [" followed by the text
of `e` and "]": the aggregate carries the underlying cause `e` and nothing else.
The name `c` of the cluster is no part of what the text is built from. -/
theorem Remove_single_delete_failure {σ Ctx : Type} (rtl : RemoveCollaborators σ Ctx)
    (obj : RoleTemplate) (w w0 : σ) (clusters : ClusterList)
    (hlist : rtl.clusters_List w = (.ok clusters, w0))
    (before after : List (Call Ctx)) (c n : String) (e : GoError)
    (hcalls : (Remove rtl obj w).calls = before ++ Call.Delete c n (some e) :: after)
    (he : IsNotFound e = false)
    (hbefore : ∀ call ∈ before, call.unexpected = none)
    (hafter : ∀ call ∈ after, call.unexpected = none) :
    (removeLoop rtl obj clusters w0).allErrors = [e] ∧
    ∃ err : GoError, (Remove rtl obj w).err = some err ∧
      err.Error = "errors deleting dowstream clusterRole: [" ++ e.Error ++ "]" ∧
      err.Error.data
        = "errors deleting dowstream clusterRole: [".data ++ e.Error.data ++ "]".data := by
  obtain ⟨segs, _, hloop, herrs⟩ := removeLoop_visits rtl obj clusters w0
  obtain ⟨_, hc, _, hres⟩ := Remove_of_listed rtl obj w w0 clusters hlist
  have hall : (removeLoop rtl obj clusters w0).allErrors = [e] := by
    rw [herrs, ← hloop, ← hc, hcalls, List.filterMap_append, List.filterMap_cons]
    have h1 : before.filterMap Call.unexpected = [] := List.filterMap_eq_nil_iff.mpr hbefore
    have h2 : after.filterMap Call.unexpected = [] := List.filterMap_eq_nil_iff.mpr hafter
    simp [h1, h2, Call.unexpected, he]
  have hs : ∀ x : String, "errors deleting dowstream clusterRole: " ++ ("[" ++ x)
      = "errors deleting dowstream clusterRole: [" ++ x := fun x => by
    rw [← String.append_assoc]; rfl
  have htext : (Errorf ("errors deleting dowstream clusterRole: " ++ formatErrors [e])).Error
      = "errors deleting dowstream clusterRole: [" ++ e.Error ++ "]" := by
    rw [formatErrors_singleton]
    simp only [Errorf, String.append_assoc]
    rw [hs]
  refine ⟨hall, _, ?_, htext, ?_⟩
  · rw [hres, hall, if_neg (by simp)]
  · rw [htext, String.data_append, String.data_append]

/-- C4, amended, on a fleet where only the delete on `clusterA` fails: the text of
the returned error is "errors deleting dowstream clusterRole: [forbidden]". -/
theorem Remove_single_delete_failure_witness :
    (Remove (fleetWorld exampleSnapshot clusterADeleteForbidden) T1 aAndCHoldT1).err.map
        GoError.Error = some "errors deleting dowstream clusterRole: [forbidden]" ∧
    (Remove (fleetWorld exampleSnapshot clusterADeleteForbiddenNamed) T1 aAndCHoldT1).err.map
        GoError.Error = some "errors deleting dowstream clusterRole: [clusterA: forbidden]" ∧
    ((removeLoop (fleetWorld exampleSnapshot clusterADeleteForbidden) T1
        { Items := exampleSnapshot } aAndCHoldT1).allErrors = [forbiddenError] ∧
      ∃ err : GoError,
        (Remove (fleetWorld exampleSnapshot clusterADeleteForbidden) T1 aAndCHoldT1).err
          = some err ∧
        err.Error = "errors deleting dowstream clusterRole: [" ++ forbiddenError.Error ++ "]" ∧
        err.Error.data = "errors deleting dowstream clusterRole: [".data
          ++ forbiddenError.Error.data ++ "]".data) :=
  ⟨by decide, by decide,
    Remove_single_delete_failure (fleetWorld exampleSnapshot clusterADeleteForbidden) T1
      aAndCHoldT1 aAndCHoldT1 { Items := exampleSnapshot } rfl
      [Call.UserContext "clusterA" (.ok "clusterA"),
       Call.Get "clusterA" "T1" (.ok { Name := "T1" })]
      [Call.UserContext "clusterB" (.ok "clusterB"),
       Call.Get "clusterB" "T1" (.error (notFoundError "T1")),
       Call.UserContext "clusterC" (.ok "clusterC"),
       Call.Get "clusterC" "T1" (.ok { Name := "T1" }),
       Call.Delete "clusterC" "T1" none]
      "clusterA" "T1" forbiddenError (by rfl) (by rfl) (by decide) (by decide)⟩

/-- C4, as stated, fails: on the fleet where only the delete on `clusterA` fails
(with an error that is not "not found") and no other cluster records an error,
`Remove` returns an error, and the `Error()` text of that returned error does not
mention `clusterA`. -/
theorem Remove_aggregate_does_not_name_cluster :
    (Remove (fleetWorld exampleSnapshot clusterADeleteForbidden) T1 aAndCHoldT1).calls =
      [Call.UserContext "clusterA" (.ok "clusterA"),
       Call.Get "clusterA" "T1" (.ok { Name := "T1" }),
       Call.Delete "clusterA" "T1" (some forbiddenError),
       Call.UserContext "clusterB" (.ok "clusterB"),
       Call.Get "clusterB" "T1" (.error (notFoundError "T1")),
       Call.UserContext "clusterC" (.ok "clusterC"),
       Call.Get "clusterC" "T1" (.ok { Name := "T1" }),
       Call.Delete "clusterC" "T1" none] ∧
    IsNotFound forbiddenError = false ∧
    (Remove (fleetWorld exampleSnapshot clusterADeleteForbidden) T1 aAndCHoldT1).err ≠ none ∧
    (∀ err : GoError,
      (Remove (fleetWorld exampleSnapshot clusterADeleteForbidden) T1 aAndCHoldT1).err
        = some err →
      err.Error = "errors deleting dowstream clusterRole: [forbidden]" ∧
      ¬ Mentions err.Error "clusterA") := by
  refine ⟨by rfl, by rfl, by decide, ?_⟩
  intro err herr
  have hval : (Remove (fleetWorld exampleSnapshot clusterADeleteForbidden) T1 aAndCHoldT1).err
      = some (Errorf "errors deleting dowstream clusterRole: [forbidden]") := by decide
  rw [hval, Option.some.injEq] at herr
  rw [← herr]
  exact ⟨by decide, by decide⟩

/-! ## `Remove` on a fleet without failures -/

/-- On a fleet without failures, one iteration records no error and leaves no
cluster role `obj.Name` on the visited cluster; when there was none, it issues no
delete. -/
theorem removeCluster_noFaults (snapshot : List Cluster) (obj : RoleTemplate)
    (st : RemoveLoop Fleet String) (cluster : Cluster) :
    (removeCluster (fleetWorld snapshot noFaults) obj st cluster).allErrors = st.allErrors ∧
    (removeCluster (fleetWorld snapshot noFaults) obj st cluster).world
      = st.world.filter (fun p => p ≠ (cluster.Name, obj.Name)) ∧
    ((cluster.Name, obj.Name) ∉ st.world →
      (removeCluster (fleetWorld snapshot noFaults) obj st cluster).calls.filter Call.isDelete
        = st.calls.filter Call.isDelete) := by
  by_cases h : (cluster.Name, obj.Name) ∈ st.world
  · simp [removeCluster, fleetWorld, noFaults, h]
  · have hself : st.world.filter (fun p => p ≠ (cluster.Name, obj.Name)) = st.world := by
      rw [List.filter_eq_self]
      intro a ha
      have : a ≠ (cluster.Name, obj.Name) := fun e => h (e ▸ ha)
      simpa using this
    refine ⟨?_, ?_, fun _ => ?_⟩
    · simp [removeCluster, fleetWorld, noFaults, h, IsNotFound, notFoundError]
    · rw [hself]
      simp [removeCluster, fleetWorld, noFaults, h, IsNotFound, notFoundError]
    · simp [removeCluster, fleetWorld, noFaults, h, IsNotFound, notFoundError,
        List.filter_append, Call.isDelete]

/-- On a fleet without failures, the loop records no error and leaves exactly the
cluster roles that are not `obj.Name` on a visited cluster. -/
theorem foldl_removeCluster_noFaults (snapshot : List Cluster) (obj : RoleTemplate)
    (clusters : List Cluster) (st : RemoveLoop Fleet String) :
    (clusters.foldl (removeCluster (fleetWorld snapshot noFaults) obj) st).allErrors
      = st.allErrors ∧
    ∀ p, p ∈ (clusters.foldl (removeCluster (fleetWorld snapshot noFaults) obj) st).world ↔
      p ∈ st.world ∧ ∀ c ∈ clusters, p ≠ (c.Name, obj.Name) := by
  induction clusters generalizing st with
  | nil => simp
  | cons c cs ih =>
    obtain ⟨h1, h2, _⟩ := removeCluster_noFaults snapshot obj st c
    obtain ⟨ih1, ih2⟩ := ih (removeCluster (fleetWorld snapshot noFaults) obj st c)
    rw [List.foldl_cons]
    refine ⟨ih1.trans h1, fun p => ?_⟩
    rw [ih2 p, h2]
    simp only [List.mem_filter, decide_eq_true_eq, List.mem_cons, forall_eq_or_imp, and_assoc]

/-- On a fleet without failures where no visited cluster holds the cluster role
`obj.Name`, the loop issues no delete and leaves the fleet as it is. -/
theorem foldl_removeCluster_clean (snapshot : List Cluster) (obj : RoleTemplate)
    (clusters : List Cluster) (st : RemoveLoop Fleet String)
    (hclean : ∀ c ∈ clusters, (c.Name, obj.Name) ∉ st.world) :
    (clusters.foldl (removeCluster (fleetWorld snapshot noFaults) obj) st).world = st.world ∧
    (clusters.foldl (removeCluster (fleetWorld snapshot noFaults) obj) st).calls.filter
      Call.isDelete = st.calls.filter Call.isDelete := by
  induction clusters generalizing st with
  | nil => simp
  | cons c cs ih =>
    obtain ⟨_, h2, h3⟩ := removeCluster_noFaults snapshot obj st c
    have hc : (c.Name, obj.Name) ∉ st.world := hclean c (List.mem_cons_self _ _)
    have hw : (removeCluster (fleetWorld snapshot noFaults) obj st c).world = st.world := by
      rw [h2, List.filter_eq_self]
      intro a ha
      have : a ≠ (c.Name, obj.Name) := fun e => hc (e ▸ ha)
      simpa using this
    obtain ⟨ih1, ih2⟩ := ih (removeCluster (fleetWorld snapshot noFaults) obj st c)
      (fun c' hc' => by rw [hw]; exact hclean c' (List.mem_cons_of_mem _ hc'))
    rw [List.foldl_cons]
    exact ⟨ih1.trans hw, ih2.trans (h3 hc)⟩

/-- A run of `Remove` on a fleet without failures, from any fleet state: no error
is returned, the fleet keeps exactly the cluster roles that are not `obj.Name` on
a cluster of the snapshot, and when no cluster of the snapshot held `obj.Name` no
delete is issued. -/
theorem Remove_noFaults (snapshot : List Cluster) (obj : RoleTemplate) (s : Fleet) :
    (Remove (fleetWorld snapshot noFaults) obj s).err = none ∧
    (∀ p, p ∈ (Remove (fleetWorld snapshot noFaults) obj s).world ↔
      p ∈ s ∧ ∀ c ∈ snapshot, p ≠ (c.Name, obj.Name)) ∧
    ((∀ c ∈ snapshot, (c.Name, obj.Name) ∉ s) →
      ∀ call ∈ (Remove (fleetWorld snapshot noFaults) obj s).calls, call.isDelete = false) := by
  obtain ⟨_, hc, hw, he⟩ :=
    Remove_of_listed (fleetWorld snapshot noFaults) obj s s { Items := snapshot } rfl
  obtain ⟨h1, h2⟩ := foldl_removeCluster_noFaults snapshot obj snapshot
    { allErrors := [], calls := [], world := s }
  refine ⟨?_, ?_, ?_⟩
  · rw [he]
    simp only [removeLoop, h1, if_true]
  · intro p
    rw [hw]
    exact h2 p
  · intro hclean call hcall
    obtain ⟨_, h4⟩ := foldl_removeCluster_clean snapshot obj snapshot
      { allErrors := [], calls := [], world := s } hclean
    rw [hc] at hcall
    have hmem : call ∉ ((removeLoop (fleetWorld snapshot noFaults) obj
        { Items := snapshot } s).calls.filter Call.isDelete) := by
      unfold removeLoop
      rw [h4]
      simp
    cases hd : call.isDelete
    · rfl
    · exact absurd (List.mem_filter.mpr ⟨hcall, hd⟩) hmem

/-- C6: on a fleet of stores, whatever a first run of `Remove` over the snapshot
did and left (any failures, any outcome), a second run over the same snapshot in
which every context is obtained and lookups and deletes answer faithfully to the
stores returns no error and leaves no cluster of the snapshot holding a cluster
role named `obj.Name`; a third run then issues no delete and returns no error. -/
theorem Remove_retry_converges {Ctx : Type} (first : RemoveCollaborators Fleet Ctx)
    (obj : RoleTemplate) (snapshot : List Cluster) (w w0 : Fleet)
    (hfirst : first.clusters_List w = (.ok { Items := snapshot }, w0)) :
    (Remove first obj w).world = (removeLoop first obj { Items := snapshot } w0).world ∧
    (Remove (fleetWorld snapshot noFaults) obj (Remove first obj w).world).err = none ∧
    (∀ c ∈ snapshot, (c.Name, obj.Name) ∉
      (Remove (fleetWorld snapshot noFaults) obj (Remove first obj w).world).world) ∧
    (Remove (fleetWorld snapshot noFaults) obj
      (Remove (fleetWorld snapshot noFaults) obj (Remove first obj w).world).world).err = none ∧
    (∀ call ∈ (Remove (fleetWorld snapshot noFaults) obj
      (Remove (fleetWorld snapshot noFaults) obj (Remove first obj w).world).world).calls,
        call.isDelete = false) := by
  obtain ⟨e2, w2, _⟩ := Remove_noFaults snapshot obj (Remove first obj w).world
  have hclean2 : ∀ c ∈ snapshot, (c.Name, obj.Name) ∉
      (Remove (fleetWorld snapshot noFaults) obj (Remove first obj w).world).world :=
    fun c hc hmem => ((w2 _).mp hmem).2 c hc rfl
  obtain ⟨e3, _, d3⟩ := Remove_noFaults snapshot obj
    (Remove (fleetWorld snapshot noFaults) obj (Remove first obj w).world).world
  exact ⟨(Remove_of_listed first obj w w0 _ hfirst).2.2.1, e2, hclean2, e3, d3 hclean2⟩

/-- C6, on a fleet where the first run fails on `clusterA` (delete forbidden) and
cleans `clusterC`: the first run returns an error and leaves the mirror on
`clusterA`; the second run succeeds and leaves nothing. -/
theorem Remove_retry_converges_witness :
    (Remove (fleetWorld exampleSnapshot clusterADeleteForbidden) T1 aAndCHoldT1).err
      = some (Errorf "errors deleting dowstream clusterRole: [forbidden]") ∧
    (Remove (fleetWorld exampleSnapshot clusterADeleteForbidden) T1 aAndCHoldT1).world
      = onlyAHoldsT1 ∧
    (Remove (fleetWorld exampleSnapshot noFaults) T1 onlyAHoldsT1).world = [] ∧
    ((Remove (fleetWorld exampleSnapshot clusterADeleteForbidden) T1 aAndCHoldT1).world
        = (removeLoop (fleetWorld exampleSnapshot clusterADeleteForbidden) T1
            { Items := exampleSnapshot } aAndCHoldT1).world ∧
      (Remove (fleetWorld exampleSnapshot noFaults) T1
        (Remove (fleetWorld exampleSnapshot clusterADeleteForbidden) T1
          aAndCHoldT1).world).err = none ∧
      (∀ c ∈ exampleSnapshot, (c.Name, T1.Name) ∉
        (Remove (fleetWorld exampleSnapshot noFaults) T1
          (Remove (fleetWorld exampleSnapshot clusterADeleteForbidden) T1
            aAndCHoldT1).world).world) ∧
      (Remove (fleetWorld exampleSnapshot noFaults) T1
        (Remove (fleetWorld exampleSnapshot noFaults) T1
          (Remove (fleetWorld exampleSnapshot clusterADeleteForbidden) T1
            aAndCHoldT1).world).world).err = none ∧
      (∀ call ∈ (Remove (fleetWorld exampleSnapshot noFaults) T1
        (Remove (fleetWorld exampleSnapshot noFaults) T1
          (Remove (fleetWorld exampleSnapshot clusterADeleteForbidden) T1
            aAndCHoldT1).world).world).calls, call.isDelete = false)) :=
  ⟨by decide, by decide, by decide,
    Remove_retry_converges (fleetWorld exampleSnapshot clusterADeleteForbidden) T1
      exampleSnapshot aAndCHoldT1 aAndCHoldT1 rfl⟩

/-! ## `Create` and `Updated` -/

/-- The loop of `enqueuePrtbs` appends one signal per binding of the list, in
order, and hands each of them to `Enqueue`. -/
theorem foldl_enqueueOne {σ : Type} (rtl : EnqueueCollaborators σ) (prtbs : List Object)
    (st : EnqueueLoop σ) :
    (prtbs.foldl (enqueueOne rtl) st).enqueued = st.enqueued ++ prtbs.filterMap enqueueSignal ∧
    (prtbs.foldl (enqueueOne rtl) st).world
      = (prtbs.filterMap enqueueSignal).foldl (fun s p => rtl.Enqueue p.1 p.2 s) st.world := by
  induction prtbs generalizing st with
  | nil => simp
  | cons x xs ih =>
    obtain ⟨h1, h2⟩ := ih (enqueueOne rtl st x)
    rw [List.foldl_cons, h1, h2]
    cases x with
    | prtb b => simp [enqueueOne, enqueueSignal]
    | other d => simp [enqueueOne, enqueueSignal]

/-- What `enqueuePrtbs` does once the index lookup has answered with a list. -/
theorem enqueuePrtbs_of_found {σ : Type} (rtl : EnqueueCollaborators σ) (obj : RoleTemplate)
    (w w0 : σ) (prtbs : List Object)
    (hidx : rtl.prtbIndexer_ByIndex prtbByRoleTemplateIndex obj.Name w = (.ok prtbs, w0)) :
    (enqueuePrtbs rtl obj w).err = none ∧
    (enqueuePrtbs rtl obj w).enqueued = prtbs.filterMap enqueueSignal ∧
    (enqueuePrtbs rtl obj w).world
      = (prtbs.filterMap enqueueSignal).foldl (fun s p => rtl.Enqueue p.1 p.2 s) w0 := by
  obtain ⟨h1, h2⟩ := foldl_enqueueOne rtl prtbs { enqueued := [], world := w0 }
  unfold enqueuePrtbs
  rw [hidx]
  exact ⟨rfl, by simpa using h1, h2⟩

/-- C7: when the index lookup by `obj.Name` answers with the list `prtbs`, `Create`
emits exactly the signals (namespace, name) of the bindings of `prtbs`, in the
order of `prtbs`, nothing for the other elements and nothing else, hands exactly
these to `Enqueue`, and returns a nil object and a nil error; `Updated` does the
same as `Create` on every input; and a second call, whose lookup answers with
`prtbs` again, emits the same signals once more. -/
theorem Create_Updated_enqueue_every_binding {σ : Type} (rtl : EnqueueCollaborators σ)
    (obj : RoleTemplate) (w w0 : σ) (prtbs : List Object)
    (hidx : rtl.prtbIndexer_ByIndex prtbByRoleTemplateIndex obj.Name w = (.ok prtbs, w0)) :
    (Create rtl obj w).enqueued = prtbs.filterMap enqueueSignal ∧
    (Create rtl obj w).world
      = (prtbs.filterMap enqueueSignal).foldl (fun s p => rtl.Enqueue p.1 p.2 s) w0 ∧
    (Create rtl obj w).err = none ∧
    (Create rtl obj w).obj = none ∧
    (∀ (obj' : RoleTemplate) (w' : σ), Updated rtl obj' w' = Create rtl obj' w') ∧
    (∀ w1, rtl.prtbIndexer_ByIndex prtbByRoleTemplateIndex obj.Name (Create rtl obj w).world
        = (.ok prtbs, w1) →
      (Create rtl obj w).enqueued ++ (Updated rtl obj (Create rtl obj w).world).enqueued
        = prtbs.filterMap enqueueSignal ++ prtbs.filterMap enqueueSignal ∧
      (Updated rtl obj (Create rtl obj w).world).err = none) := by
  have hsame : ∀ (obj' : RoleTemplate) (w' : σ), Updated rtl obj' w' = Create rtl obj' w' :=
    fun _ _ => rfl
  have hone : ∀ (v v0 : σ),
      rtl.prtbIndexer_ByIndex prtbByRoleTemplateIndex obj.Name v = (.ok prtbs, v0) →
      (Create rtl obj v).enqueued = prtbs.filterMap enqueueSignal ∧
      (Create rtl obj v).world
        = (prtbs.filterMap enqueueSignal).foldl (fun s p => rtl.Enqueue p.1 p.2 s) v0 ∧
      (Create rtl obj v).err = none ∧ (Create rtl obj v).obj = none := by
    intro v v0 hv
    obtain ⟨h1, h2, h3⟩ := enqueuePrtbs_of_found rtl obj v v0 prtbs hv
    unfold Create
    simp only [h1, h2, h3, and_self]
  obtain ⟨h1, h2, h3, h4⟩ := hone w w0 hidx
  refine ⟨h1, h2, h3, h4, hsame, fun w1 hw1 => ?_⟩
  obtain ⟨k1, _, k3, _⟩ := hone _ w1 hw1
  rw [hsame, h1, k1, k3]
  exact ⟨rfl, rfl⟩

/-- C7, on the indexer that answers `T1` with `b1`, a non-binding and `b2`. -/
theorem Create_Updated_enqueue_every_binding_witness :
    (Create exampleIndexer T1 []).enqueued = [("p1", "b1"), ("p2", "b2")] ∧
    (Create exampleIndexer T1 []).world = [("p1", "b1"), ("p2", "b2")] ∧
    (Updated exampleIndexer T1 (Create exampleIndexer T1 []).world).world
      = [("p1", "b1"), ("p2", "b2"), ("p1", "b1"), ("p2", "b2")] ∧
    (Create exampleIndexer T1 []).enqueued
      = [Object.prtb b1, Object.other "v1.Secret", Object.prtb b2].filterMap enqueueSignal :=
  ⟨by decide, by decide, by decide,
    (Create_Updated_enqueue_every_binding exampleIndexer T1 [] []
      [Object.prtb b1, Object.other "v1.Secret", Object.prtb b2] rfl).1⟩

/-- C8: `Create` and `Updated` fail with `e` exactly when the index lookup by
`obj.Name` fails with `e`; they always return a nil object; and when the lookup
fails they emit no enqueue signal and leave the outside world as the lookup left
it. -/
theorem Create_Updated_fail_iff_lookup_fails {σ : Type} (rtl : EnqueueCollaborators σ)
    (obj : RoleTemplate) (w : σ) (e : GoError) :
    ((Create rtl obj w).err = some e ↔
      (rtl.prtbIndexer_ByIndex prtbByRoleTemplateIndex obj.Name w).1 = .error e) ∧
    ((Updated rtl obj w).err = some e ↔
      (rtl.prtbIndexer_ByIndex prtbByRoleTemplateIndex obj.Name w).1 = .error e) ∧
    (Create rtl obj w).obj = none ∧ (Updated rtl obj w).obj = none ∧
    ((rtl.prtbIndexer_ByIndex prtbByRoleTemplateIndex obj.Name w).1 = .error e →
      (Create rtl obj w).enqueued = [] ∧ (Updated rtl obj w).enqueued = [] ∧
      (Create rtl obj w).world
        = (rtl.prtbIndexer_ByIndex prtbByRoleTemplateIndex obj.Name w).2 ∧
      (Updated rtl obj w).world
        = (rtl.prtbIndexer_ByIndex prtbByRoleTemplateIndex obj.Name w).2) := by
  have hsame : Updated rtl obj w = Create rtl obj w := rfl
  rw [hsame]
  cases hidx : rtl.prtbIndexer_ByIndex prtbByRoleTemplateIndex obj.Name w with
  | mk r w0 =>
    cases r with
    | error e' =>
      have h : enqueuePrtbs rtl obj w = { err := some e', enqueued := [], world := w0 } := by
        unfold enqueuePrtbs
        rw [hidx]
      simp [Create, h]
    | ok prtbs =>
      obtain ⟨h1, h2, h3⟩ := enqueuePrtbs_of_found rtl obj w w0 prtbs hidx
      simp [Create, h1]

/-- C8, on an indexer whose every lookup fails. -/
theorem Create_Updated_fail_iff_lookup_fails_witness :
    (Create indexerDown T1 []).err = some indexMissingError ∧
    (Updated indexerDown T1 []).err = some indexMissingError ∧
    (Create indexerDown T1 []).obj = none ∧ (Updated indexerDown T1 []).obj = none ∧
    (Create indexerDown T1 []).enqueued = [] ∧ (Updated indexerDown T1 []).enqueued = [] ∧
    (Create indexerDown T1 []).world = [] ∧ (Updated indexerDown T1 []).world = [] :=
  have h := Create_Updated_fail_iff_lookup_fails indexerDown T1 [] indexMissingError
  ⟨h.1.mpr rfl, h.2.1.mpr rfl, h.2.2.1, h.2.2.2.1, (h.2.2.2.2 rfl).1, (h.2.2.2.2 rfl).2.1,
    (h.2.2.2.2 rfl).2.2.1, (h.2.2.2.2 rfl).2.2.2⟩

/-- C9: `prtbByRoleTemplate` never returns an error; on a binding it returns the
one-element key list holding the binding's role template name, also when that
name is empty; on an object that is not a binding it returns the empty key
list. -/
theorem prtbByRoleTemplate_keys :
    (∀ obj : Object, (prtbByRoleTemplate obj).2 = none) ∧
    (∀ b : ProjectRoleTemplateBinding,
      prtbByRoleTemplate (Object.prtb b) = ([b.RoleTemplateName], none)) ∧
    (∀ ns name : String,
      prtbByRoleTemplate (Object.prtb { Namespace := ns, Name := name, RoleTemplateName := "" })
        = ([""], none)) ∧
    (∀ obj : Object, (∀ b, obj ≠ Object.prtb b) → prtbByRoleTemplate obj = ([], none)) := by
  refine ⟨fun obj => ?_, fun b => rfl, fun ns name => rfl, fun obj h => ?_⟩
  · cases obj <;> rfl
  · cases obj with
    | prtb b => exact absurd rfl (h b)
    | other d => rfl

/-! ## The reverse index -/

/-- The empty reverse index is well formed. -/
theorem ReverseIndex.wellFormed_empty : ReverseIndex.empty.WellFormed := by
  simp [ReverseIndex.WellFormed, ReverseIndex.empty]

/-- An update keeps the reverse index well formed. -/
theorem ReverseIndex.wellFormed_update (idx : ReverseIndex) (b : ProjectRoleTemplateBinding)
    (h : idx.WellFormed) : (idx.update b).WellFormed := by
  obtain ⟨h1, h2, h3⟩ := h
  refine ⟨?_, ?_, ?_⟩
  · simp only [ReverseIndex.update, List.map_append, List.map_cons, List.map_nil]
    rw [List.nodup_append]
    refine ⟨?_, List.nodup_singleton _, ?_⟩
    · exact (h1.sublist ((List.filter_sublist _).map _))
    · intro x hx hx'
      simp only [List.mem_singleton] at hx'
      simp only [List.mem_map, List.mem_filter, decide_eq_true_eq] at hx
      obtain ⟨p, ⟨_, hp⟩, rfl⟩ := hx
      exact hp hx'
  · intro p hp
    simp only [ReverseIndex.update, List.mem_append, List.mem_filter, List.mem_singleton] at hp
    rcases hp with ⟨hp, _⟩ | rfl
    · exact h2 p hp
    · rfl
  · simp only [ReverseIndex.update, prtbByRoleTemplate, h3, List.map_append, List.map_cons,
      List.map_nil, List.filter_map]
    rfl

/-- In a list without repeated keys, looking a stored pair up by its key finds
that pair. -/
theorem find?_key_of_nodup {α β : Type} [DecidableEq α] (l : List (α × β))
    (h : (l.map Prod.fst).Nodup) (p : α × β) (hp : p ∈ l) :
    l.find? (fun q => q.1 = p.1) = some p := by
  induction l with
  | nil => simp at hp
  | cons q qs ih =>
    simp only [List.map_cons, List.nodup_cons, List.mem_map, not_exists, not_and] at h
    rcases List.mem_cons.mp hp with rfl | hmem
    · simp
    · have hne : q.1 ≠ p.1 := fun e => h.1 p hmem e.symm
      rw [List.find?_cons_of_neg _ (by simpa using hne)]
      exact ih h.2 hmem

/-- The lookup of a well-formed reverse index returns the stored bindings whose
role template name is the key, in the order they are stored. -/
theorem ReverseIndex.lookup_of_wellFormed (idx : ReverseIndex) (h : idx.WellFormed)
    (templateName : String) :
    idx.lookup templateName
      = (idx.items.filter (fun p => p.2.RoleTemplateName = templateName)).map Prod.snd := by
  obtain ⟨h1, _, h3⟩ := h
  unfold ReverseIndex.lookup
  rw [h3, List.filter_map, List.filterMap_map]
  have hcongr : ∀ p ∈ idx.items.filter
      ((fun e : String × (String × String) => decide (e.1 = templateName)) ∘
        fun p => (p.2.RoleTemplateName, p.1)),
      ((fun e : String × (String × String) =>
          (idx.items.find? (fun q => q.1 = e.2)).map Prod.snd) ∘
        fun p => (p.2.RoleTemplateName, p.1)) p = (some ∘ Prod.snd) p := by
    intro p hp
    have hmem : p ∈ idx.items := (List.mem_filter.mp hp).1
    simp only [Function.comp_apply]
    rw [find?_key_of_nodup idx.items h1 p hmem]
    rfl
  rw [List.filterMap_congr hcongr, List.filterMap_eq_map]
  rfl

/-- Updates for bindings whose identifiers are distinct and not yet stored append
the bindings to the stored ones, in order. -/
theorem ReverseIndex.items_foldl_update (bs : List ProjectRoleTemplateBinding)
    (idx : ReverseIndex) (hbs : (bs.map bindingId).Nodup)
    (hnew : ∀ b ∈ bs, ∀ p ∈ idx.items, p.1 ≠ bindingId b) :
    (bs.foldl ReverseIndex.update idx).items
      = idx.items ++ bs.map (fun b => (bindingId b, b)) := by
  induction bs generalizing idx with
  | nil => simp
  | cons b bs ih =>
    simp only [List.map_cons, List.nodup_cons, List.mem_map, not_exists, not_and] at hbs
    have hitems : (idx.update b).items = idx.items ++ [(bindingId b, b)] := by
      simp only [ReverseIndex.update]
      rw [List.filter_eq_self.mpr]
      intro p hp
      simpa using hnew b (List.mem_cons_self _ _) p hp
    rw [List.foldl_cons, ih (idx.update b) hbs.2, hitems]
    · simp
    · intro b' hb' p hp
      rw [hitems] at hp
      rcases List.mem_append.mp hp with hp | hp
      · exact hnew b' (List.mem_cons_of_mem _ hb') p hp
      · simp only [List.mem_singleton] at hp
        rw [hp]
        exact fun e => hbs.1 b' hb' e.symm

/-- Every reverse index built by updates is well formed. -/
theorem ReverseIndex.wellFormed_build (bs : List ProjectRoleTemplateBinding) :
    (ReverseIndex.build bs).WellFormed := by
  have h : ∀ idx : ReverseIndex, idx.WellFormed →
      (bs.foldl ReverseIndex.update idx).WellFormed := by
    induction bs with
    | nil => exact fun _ h => h
    | cons b bs ih => exact fun idx h => ih _ (ReverseIndex.wellFormed_update idx b h)
  exact h _ ReverseIndex.wellFormed_empty

/-- The bindings stored after one update for each binding of a collection with
distinct identifiers. -/
theorem ReverseIndex.items_build (bs : List ProjectRoleTemplateBinding)
    (hbs : (bs.map bindingId).Nodup) :
    (ReverseIndex.build bs).items = bs.map (fun b => (bindingId b, b)) := by
  have h := ReverseIndex.items_foldl_update bs ReverseIndex.empty hbs
    (by simp [ReverseIndex.empty])
  simpa [ReverseIndex.build, ReverseIndex.empty] using h

/-- The lookup after one more update, for any binding, on the reverse index of a
collection with distinct identifiers: the bindings of the collection with another
identifier and the looked-up name, then the updated binding if it has that
name. -/
theorem ReverseIndex.lookup_update_build (bs : List ProjectRoleTemplateBinding)
    (hbs : (bs.map bindingId).Nodup) (b' : ProjectRoleTemplateBinding) (templateName : String) :
    ((ReverseIndex.build bs).update b').lookup templateName
      = bs.filter (fun b => bindingId b ≠ bindingId b' ∧ b.RoleTemplateName = templateName)
        ++ (if b'.RoleTemplateName = templateName then [b'] else []) := by
  rw [ReverseIndex.lookup_of_wellFormed _
    (ReverseIndex.wellFormed_update _ b' (ReverseIndex.wellFormed_build bs))]
  simp only [ReverseIndex.update, ReverseIndex.items_build bs hbs, List.filter_append,
    List.map_append, List.filter_map, List.filter_filter, List.map_map]
  congr 1
  · have hid : (Prod.snd ∘ fun b : ProjectRoleTemplateBinding => (bindingId b, b)) = id := rfl
    rw [hid, List.map_id]
    apply List.filter_congr
    intro x _
    simp [Bool.and_comm]
  · by_cases h : b'.RoleTemplateName = templateName <;> simp [h]

/-- C10: for every collection `bs` of bindings with distinct identifiers, the
reverse index built by one `update` per binding, with keys computed by
`prtbByRoleTemplate`, answers `lookup` of any name with exactly the bindings of
`bs` that have that role template name (the empty list when there are none); an
`update` delivered twice is the same as delivered once, and one more `update`
for a binding of `bs` leaves the members of every lookup result as they are; and
an `update` that changes the role template name of a binding of `bs` removes the
binding from the result of the old name and adds the new one to the result of the
new name. -/
theorem ReverseIndex.lookup_correct (bs : List ProjectRoleTemplateBinding)
    (hbs : (bs.map bindingId).Nodup) :
    (∀ templateName, (ReverseIndex.build bs).lookup templateName
      = bs.filter (fun b => b.RoleTemplateName = templateName)) ∧
    (∀ templateName, (∀ b ∈ bs, b.RoleTemplateName ≠ templateName) →
      (ReverseIndex.build bs).lookup templateName = []) ∧
    (∀ (idx : ReverseIndex) (b : ProjectRoleTemplateBinding),
      (idx.update b).update b = idx.update b) ∧
    (∀ b ∈ bs, ∀ templateName x,
      x ∈ ((ReverseIndex.build bs).update b).lookup templateName ↔
        x ∈ (ReverseIndex.build bs).lookup templateName) ∧
    (∀ b ∈ bs, ∀ b' : ProjectRoleTemplateBinding, bindingId b' = bindingId b →
      b'.RoleTemplateName ≠ b.RoleTemplateName →
      b ∉ ((ReverseIndex.build bs).update b').lookup b.RoleTemplateName ∧
      b' ∈ ((ReverseIndex.build bs).update b').lookup b'.RoleTemplateName ∧
      ∀ templateName x, bindingId x ≠ bindingId b →
        (x ∈ ((ReverseIndex.build bs).update b').lookup templateName ↔
          x ∈ (ReverseIndex.build bs).lookup templateName)) := by
  have hlookup : ∀ templateName, (ReverseIndex.build bs).lookup templateName
      = bs.filter (fun b => b.RoleTemplateName = templateName) := by
    intro templateName
    rw [ReverseIndex.lookup_of_wellFormed _ (ReverseIndex.wellFormed_build bs),
      ReverseIndex.items_build bs hbs, List.filter_map, List.map_map]
    exact List.map_id _
  have hinj : ∀ x ∈ bs, ∀ y ∈ bs, bindingId x = bindingId y → x = y :=
    fun x hx y hy e => List.inj_on_of_nodup_map hbs hx hy e
  refine ⟨hlookup, ?_, ?_, ?_, ?_⟩
  · intro templateName hnone
    rw [hlookup, List.filter_eq_nil_iff]
    intro b hb
    simpa using hnone b hb
  · intro idx b
    simp [ReverseIndex.update, List.filter_append, List.filter_filter, prtbByRoleTemplate]
  · intro b hb templateName x
    rw [ReverseIndex.lookup_update_build bs hbs, hlookup]
    simp only [List.mem_append, List.mem_filter, decide_eq_true_eq]
    constructor
    · rintro (⟨hx, _, hn⟩ | hx)
      · exact ⟨hx, hn⟩
      · by_cases hn : b.RoleTemplateName = templateName
        · rw [if_pos hn, List.mem_singleton] at hx
          rw [hx]
          exact ⟨hb, hn⟩
        · rw [if_neg hn] at hx
          simp at hx
    · rintro ⟨hx, hn⟩
      by_cases hid : bindingId x = bindingId b
      · have hxb : x = b := hinj x hx b hb hid
        right
        rw [← hxb, if_pos hn]
        exact List.mem_singleton.mpr rfl
      · exact Or.inl ⟨hx, by simpa using hid, hn⟩
  · intro b hb b' hid hname
    refine ⟨?_, ?_, ?_⟩
    · rw [ReverseIndex.lookup_update_build bs hbs, if_neg hname]
      simp [hid]
    · rw [ReverseIndex.lookup_update_build bs hbs, if_pos rfl]
      simp
    · intro templateName x hx
      rw [ReverseIndex.lookup_update_build bs hbs, hlookup]
      simp only [List.mem_append, List.mem_filter, decide_eq_true_eq, hid]
      constructor
      · rintro (⟨hmem, _, hn⟩ | hmem)
        · exact ⟨hmem, hn⟩
        · by_cases hn : b'.RoleTemplateName = templateName
          · rw [if_pos hn, List.mem_singleton] at hmem
            exact absurd (hmem ▸ hid) hx
          · rw [if_neg hn] at hmem
            simp at hmem
      · rintro ⟨hmem, hn⟩
        exact Or.inl ⟨hmem, by simpa using hx, hn⟩

/-- C10, on the collection `b1`, `b3`, `b2`: the lookups of `T1`, `T2` and of a name
nobody references, and the lookups after `b1` is retargeted to `T2`. -/
theorem ReverseIndex.lookup_correct_witness :
    (ReverseIndex.build [b1, b3, b2]).lookup "T1" = [b1, b2] ∧
    (ReverseIndex.build [b1, b3, b2]).lookup "T2" = [b3] ∧
    (ReverseIndex.build [b1, b3, b2]).lookup "T3" = [] ∧
    ((ReverseIndex.build [b1, b3, b2]).update b1).lookup "T1" = [b2, b1] ∧
    ((ReverseIndex.build [b1, b3, b2]).update { b1 with RoleTemplateName := "T2" }).lookup "T1"
      = [b2] ∧
    ((ReverseIndex.build [b1, b3, b2]).update { b1 with RoleTemplateName := "T2" }).lookup "T2"
      = [b3, { b1 with RoleTemplateName := "T2" }] ∧
    (∀ templateName, (ReverseIndex.build [b1, b3, b2]).lookup templateName
      = [b1, b3, b2].filter (fun b => b.RoleTemplateName = templateName)) :=
  ⟨by decide, by decide, by decide, by decide, by decide, by decide,
    (ReverseIndex.lookup_correct [b1, b3, b2] (by decide)).1⟩

end RoleTemplateLifecycle
